import Mathlib

/-!
Verification of the fund-accounting and subsidized-developer allocation code
of bayarea_urbansim (src/subsidies.py) against its specification.

Numbers (money, square footage, unit counts before flooring) are modelled as
exact rationals; pandas float NaN and plus or minus infinity in the max_profit
column are modelled by Option (none stands for a non-finite value, matching
the replace-inf-with-nan step at line 196 of the source, after which the only
non-finite value left is NaN). Subaccount identifiers are rationals as well,
since they are produced by evaluating a configured expression over numeric
table columns.

The Account ledger is the external collaborator urbansim.accounts.Account; it
is modelled from its documented interface (spec section 6): add_transaction
appends one signed transaction, iter_subaccounts reports each subaccount that
has ever received a transaction, once, with its balance, and
total_transactions_by_subacct sums the amounts booked to one subaccount.
-/

namespace Subsidies

/-- Transaction metadata: description and year always; the subsidized-builder
transactions also carry the building id and the unit count (source lines
279 to 284). -/
structure Metadata where
  description : String
  year : ℤ
  building_id : Option ℕ
  residential_units : Option ℤ
deriving Repr, DecidableEq

/-- One signed ledger transaction against a named subaccount. -/
structure Transaction where
  amount : ℚ
  subaccount : ℚ
  metadata : Metadata
deriving Repr, DecidableEq

/-- The Account ledger: an append-only list of transactions. -/
structure Account where
  name : String
  transactions : List Transaction
deriving Repr, DecidableEq

/-- Append one transaction to the ledger. -/
def Account.add_transaction (a : Account) (amount : ℚ) (subaccount : ℚ)
    (metadata : Metadata) : Account :=
  { a with transactions := a.transactions ++ [⟨amount, subaccount, metadata⟩] }

/-- The balance of one subaccount: the sum of the amounts booked to it. -/
def Account.total_transactions_by_subacct (a : Account) (subacct : ℚ) : ℚ :=
  ((a.transactions.filter (fun t => decide (t.subaccount = subacct))).map
    Transaction.amount).sum

/-- Every subaccount that has ever received a transaction, each exactly once,
paired with its balance.  (numpy unique also sorts the ids; the order of the
pairs is irrelevant to every property proved below, so plain deduplication is
used.) -/
def Account.iter_subaccounts (a : Account) : List (ℚ × ℚ) :=
  ((a.transactions.map Transaction.subaccount).dedup).map
    (fun s => (s, a.total_transactions_by_subacct s))

/-- The transactions a step appended to an account, given the account before
and after the step. -/
def postedDuring (before after : Account) : List Transaction :=
  after.transactions.drop before.transactions.length

/-- The total magnitude of the transactions a step booked to one subaccount. -/
def spentOnSubacct (before after : Account) (s : ℚ) : ℚ :=
  (((postedDuring before after).filter (fun t => decide (t.subaccount = s))).map
    (fun t => |t.amount|)).sum

/-! ## Configured pandas expressions

tax_buildings receives its filter, its tax formula and its subaccount mapping
as configured expression strings evaluated against the buildings table
(source lines 48 to 52).  pandas resolves every referenced name against the
table columns and raises when one is missing, whatever the row count; the
embedding checks the referenced fields against the table schema and returns
an error exactly then. -/

/-- A row of a numeric table: field name to value. -/
def Row : Type := List (String × ℚ)

/-- Value of a field in a row (0 when absent; the schema check below keeps
evaluation away from absent fields on well-formed tables). -/
def Row.get (r : Row) (f : String) : ℚ :=
  (List.lookup f r).getD 0

/-- A numeric pandas eval expression over table columns. -/
inductive NumExpr where
  | lit : ℚ → NumExpr
  | field : String → NumExpr
  | add : NumExpr → NumExpr → NumExpr
  | sub : NumExpr → NumExpr → NumExpr
  | mul : NumExpr → NumExpr → NumExpr
deriving Repr, DecidableEq

/-- The column names a numeric expression references. -/
def NumExpr.fields : NumExpr → List String
  | .lit _ => []
  | .field f => [f]
  | .add a b => a.fields ++ b.fields
  | .sub a b => a.fields ++ b.fields
  | .mul a b => a.fields ++ b.fields

/-- Evaluate a numeric expression on one row. -/
def NumExpr.evalOn (r : Row) : NumExpr → ℚ
  | .lit q => q
  | .field f => r.get f
  | .add a b => a.evalOn r + b.evalOn r
  | .sub a b => a.evalOn r - b.evalOn r
  | .mul a b => a.evalOn r * b.evalOn r

/-- A boolean pandas query expression over table columns. -/
inductive BoolExpr where
  | lt : NumExpr → NumExpr → BoolExpr
  | le : NumExpr → NumExpr → BoolExpr
  | eq : NumExpr → NumExpr → BoolExpr
  | conj : BoolExpr → BoolExpr → BoolExpr
  | disj : BoolExpr → BoolExpr → BoolExpr
  | neg : BoolExpr → BoolExpr
deriving Repr, DecidableEq

/-- The column names a boolean expression references. -/
def BoolExpr.fields : BoolExpr → List String
  | .lt a b => a.fields ++ b.fields
  | .le a b => a.fields ++ b.fields
  | .eq a b => a.fields ++ b.fields
  | .conj a b => a.fields ++ b.fields
  | .disj a b => a.fields ++ b.fields
  | .neg a => a.fields

/-- Evaluate a boolean expression on one row. -/
def BoolExpr.evalOn (r : Row) : BoolExpr → Bool
  | .lt a b => decide (a.evalOn r < b.evalOn r)
  | .le a b => decide (a.evalOn r ≤ b.evalOn r)
  | .eq a b => decide (a.evalOn r = b.evalOn r)
  | .conj a b => a.evalOn r && b.evalOn r
  | .disj a b => a.evalOn r || b.evalOn r
  | .neg a => ! a.evalOn r

/-- A numeric table: a column schema and rows. -/
structure Table where
  cols : List String
  rows : List Row

/-- DataFrame.query: keep the rows satisfying the filter; raise when the
filter references a column the table does not have. -/
def queryTable (t : Table) (e : BoolExpr) : Except String Table :=
  if e.fields.all (fun f => t.cols.contains f) then
    Except.ok { cols := t.cols, rows := t.rows.filter (fun r => e.evalOn r) }
  else Except.error "query expression references a missing field"

/-- DataFrame.eval: the expression evaluated on every row; raise when it
references a column the table does not have. -/
def evalColumn (t : Table) (e : NumExpr) : Except String (List ℚ) :=
  if e.fields.all (fun f => t.cols.contains f) then
    Except.ok (t.rows.map (fun r => e.evalOn r))
  else Except.error "eval expression references a missing field"

/-- Column selection by name; raise when the column does not exist. -/
def getColumn (t : Table) (c : String) : Except String (List ℚ) :=
  if t.cols.contains c then Except.ok (t.rows.map (fun r => r.get c))
  else Except.error "missing column"

/-- pandas groupby-sum over key-value pairs: one pair per distinct key, with
the sum of the values carrying that key. -/
def groupbySum (ps : List (ℚ × ℚ)) : List (ℚ × ℚ) :=
  ((ps.map Prod.fst).dedup).map
    (fun k => (k, ((ps.filter (fun p => decide (p.1 = k))).map Prod.snd).sum))

/-- Settings record for tax_buildings (source lines 34 to 38). -/
structure TaxSettings where
  sending_buildings_filter : BoolExpr
  sending_buildings_tax : NumExpr
  sending_buildings_subaccount_def : String

/-- tax_buildings (source lines 26 to 62): filter the buildings, evaluate the
tax formula per building, group the tax by the configured subaccount column
and post one transaction per subaccount.  A missing field in the filter, the
tax formula or the subaccount column aborts the step with an error. -/
def tax_buildings (buildings : Table) (acct_settings : TaxSettings)
    (account : Account) (year : ℤ) : Except String Account :=
  match queryTable buildings acct_settings.sending_buildings_filter with
  | Except.error e => Except.error e
  | Except.ok bs =>
    match evalColumn bs acct_settings.sending_buildings_tax with
    | Except.error e => Except.error e
    | Except.ok tax =>
      match getColumn bs acct_settings.sending_buildings_subaccount_def with
      | Except.error e => Except.error e
      | Except.ok subaccounts =>
        Except.ok { account with transactions := account.transactions
          ++ (groupbySum (subaccounts.zip tax)).map (fun p =>
            { amount := p.2, subaccount := p.1,
              metadata := { description := "Collecting property tax",
                            year := year, building_id := none,
                            residential_units := none } }) }

/-! ## VMT fees (source lines 86 to 118) -/

/-- One row of the per-year construction summary (summary.parcel_output). -/
structure ParcelOut where
  year_built : ℤ
  subsidized : Bool
  vmt_res_cat : ℚ
  residential_units : ℚ
deriving Repr, DecidableEq

/-- The qualifying filter of calculate_vmt_fees (source lines 95 to 96):
built inside the current iteration year window and not already tagged
subsidized. -/
def vmtQualifies (year years_per_iter : ℤ) (p : ParcelOut) : Bool :=
  decide (year ≤ p.year_built) && decide (p.year_built < year + years_per_iter)
    && ! p.subsidized

/-- calculate_vmt_fees: restrict the construction summary to qualifying
buildings; when none qualify, return the account unchanged (source line 98);
otherwise map a per-unit fee over the residential-density category, multiply
by unit count, sum, and post one transaction to subaccount 1. -/
def calculate_vmt_fees (fee_amounts : ℚ → ℚ) (year years_per_iter : ℤ)
    (parcel_output : List ParcelOut) (account : Account) : Account :=
  let df := parcel_output.filter (vmtQualifies year years_per_iter)
  if df.isEmpty then account
  else
    account.add_transaction
      ((df.map (fun p => fee_amounts p.vmt_res_cat * p.residential_units)).sum)
      1
      { description := "VMT development fees", year := year,
        building_id := none, residential_units := none }

/-! ## The subsidized developer allocator (source lines 127 to 306) -/

/-- One feasibility row: a candidate development.  max_profit is none when the
source float was NaN or plus or minus infinity (all non-finite values are
merged to NaN at line 196 before any comparison).  juris is the geography
attribute the configured subaccount mapping and zone filter read. -/
structure FeasRow where
  parcelId : ℕ
  max_profit : Option ℚ
  residential_sqft : ℚ
  total_residential_units : ℤ
  juris : ℚ
deriving Repr, DecidableEq

/-- Allocator settings: the optional receiving-zone filter (line 215) and the
configured subaccount-mapping expression (line 225), modelled as functions of
the row, the way a pandas eval expression is a function of the row fields. -/
structure AllocSettings where
  receiving_buildings_filter : Option (FeasRow → Bool)
  sending_buildings_subaccount_def : FeasRow → ℚ

/-- The finite profit of a row whose max_profit is finite (0 for a
non-finite row; such rows are discarded before this value is ever used). -/
def profit_of (r : FeasRow) : ℚ :=
  r.max_profit.getD 0

/-- Step 3 (lines 200 to 202): the implied residential unit count, the floor
of projected square footage over the parcel average square feet per unit. -/
def residential_units_of (ave : ℕ → ℚ) (r : FeasRow) : ℤ :=
  ⌊r.residential_sqft / ave r.parcelId⌋

/-- Step 4 (lines 211 to 212): subsidy per unit, profit over implied units
(negative; smaller magnitude is cheaper). -/
def subsidy_per_unit_of (ave : ℕ → ℚ) (r : FeasRow) : ℚ :=
  profit_of r / (residential_units_of ave r : ℚ)

/-- The subsidy cost of a candidate, a positive magnitude: -1 * max_profit
(line 241). -/
def subsidyCost (r : FeasRow) : ℚ :=
  - profit_of r

/-- Steps 2, 3B and 5 (lines 196 to 220): keep rows with finite strictly
negative profit, whose implied unit count exceeds the existing unit count,
and which pass the optional receiving-zone filter. -/
def candidateRows (ave : ℕ → ℚ) (acct_settings : AllocSettings)
    (feasibility : List FeasRow) : List FeasRow :=
  let f1 := feasibility.filter (fun r => match r.max_profit with
    | some v => decide (v < 0)
    | none => false)
  let f2 := f1.filter (fun r =>
    decide (r.total_residential_units < residential_units_of ave r))
  match acct_settings.receiving_buildings_filter with
  | some flt => f2.filter flt
  | none => f2

/-- Insert into a list kept in descending key order. -/
def insertByKeyDesc (key : FeasRow → ℚ) (a : FeasRow) :
    List FeasRow → List FeasRow
  | [] => [a]
  | b :: bs =>
    if key a ≤ key b then b :: insertByKeyDesc key a bs
    else a :: b :: bs

/-- Sort by a key, descending (line 237: sort by subsidy_per_unit with
ascending set to False). -/
def sortByKeyDesc (key : FeasRow → ℚ) : List FeasRow → List FeasRow
  | [] => []
  | a :: as => insertByKeyDesc key a (sortByKeyDesc key as)

/-- Step 7 (lines 230 to 237): the rows of one subaccount, sorted by subsidy
per unit, least negative first. -/
def sortedCandidates (ave : ℕ → ℚ) (acct_settings : AllocSettings)
    (feasC : List FeasRow) (subacct : ℚ) : List FeasRow :=
  sortByKeyDesc (subsidy_per_unit_of ave)
    (feasC.filter (fun r =>
      decide (acct_settings.sending_buildings_subaccount_def r = subacct)))

/-- Running cumulative sums of a list (pandas cumsum). -/
def cumsum : List ℚ → List ℚ
  | [] => []
  | x :: xs => x :: (cumsum xs).map (fun v => x + v)

/-- numpy searchsorted with its default left side on a sorted list: the index
where the value would be inserted keeping the order, i.e. the number of
leading entries strictly below the value. -/
def searchsortedLeft (l : List ℚ) (v : ℚ) : ℕ :=
  (l.takeWhile (fun x => decide (x < v))).length

/-- Step 8 (line 241): the number of buildings kept, the insertion point of
the subaccount balance in the cumulative subsidy costs of the sorted
candidates. -/
def num_bldgs (ave : ℕ → ℚ) (acct_settings : AllocSettings)
    (feasC : List FeasRow) (subacct : ℚ) (amount : ℚ) : ℕ :=
  searchsortedLeft
    (cumsum ((sortedCandidates ave acct_settings feasC subacct).map subsidyCost))
    amount

/-- The candidates one subaccount passes to run_developer (line 248): the
leading num_bldgs of the sorted candidates.  (The two continue statements at
lines 233 and 243 skip subaccounts with no candidate or a zero cut, which is
the same as taking a prefix of length 0.) -/
def selectForSubacct (ave : ℕ → ℚ) (acct_settings : AllocSettings)
    (feasC : List FeasRow) (subacct : ℚ) (amount : ℚ) : List FeasRow :=
  (sortedCandidates ave acct_settings feasC subacct).take
    (num_bldgs ave acct_settings feasC subacct amount)

/-- The selection of every reported subaccount, in the order the account
reports them. -/
def allocatorSelections (ave : ℕ → ℚ) (acct_settings : AllocSettings)
    (feasC : List FeasRow) (subs : List (ℚ × ℚ)) : List (List FeasRow) :=
  subs.map (fun sub => selectForSubacct ave acct_settings feasC sub.1 sub.2)

/-- The expenditure transaction booked for one constructed building (lines
277 to 286): the signed amount is the building max_profit (negative). -/
def devTransaction (ave : ℕ → ℚ) (year : ℤ) (subacct : ℚ) (r : FeasRow) :
    Transaction :=
  { amount := profit_of r, subaccount := subacct,
    metadata := { description := "Developing subsidized building", year := year,
                  building_id := some r.parcelId,
                  residential_units := some (residential_units_of ave r) } }

/-- run_subsidized_developer (lines 127 to 306).  demand models the generic
run_developer collaborator: of the submitted candidates it constructs the
subset for which there is demand (spec section 4.3 step e: the constructed
set can be smaller than the selected set).  The result is the mutated account
together with the concatenated list of constructed buildings (the rows the
step tags subsidized and appends to the construction summary).  The loop at
line 227 walks the subaccounts reported at call start; each iteration books
one transaction per constructed building against its own subaccount, so the
final ledger is the original one with the per-subaccount batches appended in
report order. -/
def run_subsidized_developer (ave : ℕ → ℚ) (acct_settings : AllocSettings)
    (year : ℤ) (demand : FeasRow → Bool) (account : Account)
    (feasibility : List FeasRow) : Account × List FeasRow :=
  let feasC := candidateRows ave acct_settings feasibility
  let subs := account.iter_subaccounts
  let newTx := (subs.map (fun sub =>
    ((selectForSubacct ave acct_settings feasC sub.1 sub.2).filter demand).map
      (devTransaction ave year sub.1))).flatten
  let built := (subs.map (fun sub =>
    (selectForSubacct ave acct_settings feasC sub.1 sub.2).filter demand)).flatten
  ({ account with transactions := account.transactions ++ newTx }, built)

/-- Modelled from the spec: the cut the specification describes for step 8 of
the allocator (spec section 4.3 step c): keep candidates up to, and not
including, the first position where the cumulative subsidy cost exceeds the
balance, i.e. the maximal count of leading cumulative sums at most the
balance.  Compared against num_bldgs, which the source computes with
searchsorted on its default left side. -/
def specSelectedCount (costs : List ℚ) (balance : ℚ) : ℕ :=
  ((cumsum costs).takeWhile (fun v => decide (v ≤ balance))).length

/-! ## Helper lemmas -/

theorem mem_insertByKeyDesc {key : FeasRow → ℚ} {a x : FeasRow}
    {l : List FeasRow} : x ∈ insertByKeyDesc key a l ↔ x = a ∨ x ∈ l := by
  induction l with
  | nil => simp [insertByKeyDesc]
  | cons b bs ih =>
    unfold insertByKeyDesc
    by_cases h : key a ≤ key b
    · rw [if_pos h]
      simp only [List.mem_cons, ih]
      tauto
    · rw [if_neg h]
      simp only [List.mem_cons]

theorem mem_sortByKeyDesc {key : FeasRow → ℚ} {x : FeasRow}
    {l : List FeasRow} : x ∈ sortByKeyDesc key l ↔ x ∈ l := by
  induction l with
  | nil => simp [sortByKeyDesc]
  | cons a as ih =>
    unfold sortByKeyDesc
    rw [mem_insertByKeyDesc]
    simp only [List.mem_cons, ih]

theorem pairwise_insertByKeyDesc (key : FeasRow → ℚ) (a : FeasRow)
    (l : List FeasRow) (h : l.Pairwise (fun x y => key y ≤ key x)) :
    (insertByKeyDesc key a l).Pairwise (fun x y => key y ≤ key x) := by
  induction l with
  | nil => simp [insertByKeyDesc]
  | cons b bs ih =>
    rw [List.pairwise_cons] at h
    obtain ⟨hb, hbs⟩ := h
    unfold insertByKeyDesc
    by_cases hk : key a ≤ key b
    · rw [if_pos hk, List.pairwise_cons]
      refine ⟨fun x hx => ?_, ih hbs⟩
      rcases mem_insertByKeyDesc.1 hx with rfl | hx
      · exact hk
      · exact hb x hx
    · rw [if_neg hk, List.pairwise_cons]
      refine ⟨fun x hx => ?_, List.pairwise_cons.2 ⟨hb, hbs⟩⟩
      rcases List.mem_cons.1 hx with rfl | hx
      · exact le_of_not_le hk
      · exact le_trans (hb x hx) (le_of_not_le hk)

theorem sortByKeyDesc_sorted (key : FeasRow → ℚ) (l : List FeasRow) :
    (sortByKeyDesc key l).Pairwise (fun x y => key y ≤ key x) := by
  induction l with
  | nil => simp [sortByKeyDesc]
  | cons a as ih => exact pairwise_insertByKeyDesc key a _ ih

theorem cumsum_cons (x : ℚ) (xs : List ℚ) :
    cumsum (x :: xs) = x :: (cumsum xs).map (fun v => x + v) := rfl

theorem searchsorted_cumsum_cons_pos (x : ℚ) (xs : List ℚ) (B : ℚ)
    (hx : x < B) :
    searchsortedLeft (cumsum (x :: xs)) B
      = searchsortedLeft (cumsum xs) (B - x) + 1 := by
  have hpf : ((fun v => decide (v < B)) ∘ (fun v : ℚ => x + v))
      = (fun v : ℚ => decide (v < B - x)) := by
    funext v
    simp only [Function.comp]
    rw [decide_eq_decide]
    constructor <;> intro h <;> linarith
  have hd : decide (x < B) = true := decide_eq_true hx
  unfold searchsortedLeft
  rw [cumsum_cons, List.takeWhile_cons, hd]
  rw [if_pos rfl, List.takeWhile_map, hpf, List.length_cons, List.length_map]

theorem searchsorted_cumsum_cons_neg (x : ℚ) (xs : List ℚ) (B : ℚ)
    (hx : ¬ x < B) :
    searchsortedLeft (cumsum (x :: xs)) B = 0 := by
  unfold searchsortedLeft
  rw [cumsum_cons, List.takeWhile_cons]
  simp [hx]

/-- The sum of the prefix cut by searchsorted on the cumulative sums is
strictly below the balance, unless the cut is empty. -/
theorem sum_take_searchsorted (l : List ℚ) (B : ℚ) :
    searchsortedLeft (cumsum l) B = 0 ∨
      (l.take (searchsortedLeft (cumsum l) B)).sum < B := by
  induction l generalizing B with
  | nil => left; rfl
  | cons x xs ih =>
    by_cases hx : x < B
    · right
      rw [searchsorted_cumsum_cons_pos x xs B hx, List.take_succ_cons,
        List.sum_cons]
      rcases ih (B - x) with h0 | hlt
      · rw [h0]
        simpa using hx
      · linarith
    · left
      exact searchsorted_cumsum_cons_neg x xs B hx

theorem sum_map_filter_le (l : List FeasRow) (p : FeasRow → Bool)
    (f : FeasRow → ℚ) (h : ∀ x ∈ l, 0 ≤ f x) :
    ((l.filter p).map f).sum ≤ (l.map f).sum := by
  induction l with
  | nil => simp
  | cons a as ih =>
    have ha := h a (List.mem_cons_self a as)
    have ih2 := ih (fun x hx => h x (List.mem_cons_of_mem a hx))
    by_cases hp : p a
    · simp only [List.filter_cons, hp, if_true, List.map_cons, List.sum_cons]
      linarith
    · simp only [List.filter_cons, hp, if_false, List.map_cons, List.sum_cons,
        Bool.false_eq_true]
      linarith

theorem sum_filter_add_sum_filter_not (l : List (ℚ × ℚ)) (p : ℚ × ℚ → Bool) :
    ((l.filter p).map Prod.snd).sum
      + ((l.filter (fun x => ! p x)).map Prod.snd).sum
      = (l.map Prod.snd).sum := by
  induction l with
  | nil => simp
  | cons a as ih =>
    by_cases hp : p a <;>
      simp only [List.filter_cons, hp, Bool.not_true, Bool.not_false, if_true,
        if_false, List.map_cons, List.sum_cons, Bool.false_eq_true] <;>
      linarith

theorem groupbySum_conserves_aux (keys : List ℚ) :
    ∀ ps : List (ℚ × ℚ), keys.Nodup → (∀ p ∈ ps, p.1 ∈ keys) →
      (keys.map (fun k =>
        ((ps.filter (fun p => decide (p.1 = k))).map Prod.snd).sum)).sum
        = (ps.map Prod.snd).sum := by
  induction keys with
  | nil =>
    intro ps _ hps
    cases ps with
    | nil => simp
    | cons p rest => exact absurd (hps p (List.mem_cons_self p rest)) (by simp)
  | cons k ks ih =>
    intro ps hnd hps
    rw [List.map_cons, List.sum_cons]
    have hknotin : k ∉ ks := (List.nodup_cons.1 hnd).1
    have hkd : ks.Nodup := (List.nodup_cons.1 hnd).2
    have hmemrest : ∀ p ∈ ps.filter (fun p => ! decide (p.1 = k)), p.1 ∈ ks := by
      intro p hp
      have hpm := List.mem_filter.1 hp
      have h1 : p.1 ≠ k := by simpa using hpm.2
      rcases List.mem_cons.1 (hps p hpm.1) with h | h
      · exact absurd h h1
      · exact h
    have hswap : ∀ k' ∈ ks,
        ps.filter (fun p => decide (p.1 = k'))
          = (ps.filter (fun p => ! decide (p.1 = k))).filter
              (fun p => decide (p.1 = k')) := by
      intro k' hk'
      rw [List.filter_filter]
      have : (fun (p : ℚ × ℚ) => decide (p.1 = k') && ! decide (p.1 = k))
          = (fun p => decide (p.1 = k')) := by
        funext p
        have hk'k : k' ≠ k := fun hkk => hknotin (hkk ▸ hk')
        by_cases h : p.1 = k'
        · simp [h, hk'k]
        · simp [h]
      rw [this]
    have hrest : (ks.map (fun k' =>
        ((ps.filter (fun p => decide (p.1 = k'))).map Prod.snd).sum)).sum
        = ((ps.filter (fun p => ! decide (p.1 = k))).map Prod.snd).sum := by
      rw [List.map_congr_left (fun k' hk' => by rw [hswap k' hk'])]
      exact ih _ hkd hmemrest
    rw [hrest]
    exact sum_filter_add_sum_filter_not ps (fun p => decide (p.1 = k))

theorem groupbySum_conserves (ps : List (ℚ × ℚ)) :
    ((groupbySum ps).map Prod.snd).sum = (ps.map Prod.snd).sum := by
  unfold groupbySum
  rw [List.map_map]
  have hcomp : (Prod.snd ∘ fun k =>
      (k, ((ps.filter (fun p => decide (p.1 = k))).map Prod.snd).sum))
      = fun k => ((ps.filter (fun p => decide (p.1 = k))).map Prod.snd).sum :=
    rfl
  rw [hcomp]
  exact groupbySum_conserves_aux _ ps (List.nodup_dedup _)
    (fun p hp => List.mem_dedup.2 (List.mem_map_of_mem Prod.fst hp))

theorem iter_subaccounts_map_fst (a : Account) :
    (a.iter_subaccounts.map Prod.fst)
      = (a.transactions.map Transaction.subaccount).dedup := by
  unfold Account.iter_subaccounts
  rw [List.map_map]
  exact List.map_id _

theorem iter_subaccounts_fst_nodup (a : Account) :
    (a.iter_subaccounts.map Prod.fst).Nodup := by
  rw [iter_subaccounts_map_fst]
  exact List.nodup_dedup _

/-- A batch map that tags every transaction with its own subaccount id puts
into the flattened list, for a reported subaccount, exactly its own batch. -/
theorem filter_flatten_batches (batch : ℚ × ℚ → List Transaction)
    (hbatch : ∀ sub, ∀ t ∈ batch sub, t.subaccount = sub.1) :
    ∀ (subs : List (ℚ × ℚ)) (s b : ℚ), (subs.map Prod.fst).Nodup →
      (s, b) ∈ subs →
      ((subs.map batch).flatten.filter (fun t => decide (t.subaccount = s)))
        = batch (s, b) := by
  intro subs
  induction subs with
  | nil => intro s b _ hmem; cases hmem
  | cons sub rest ih =>
    intro s b hnd hmem
    rw [List.map_cons, List.flatten_cons, List.filter_append]
    rw [List.map_cons] at hnd
    rcases List.mem_cons.1 hmem with heq | hmem'
    · subst heq
      have h1 : (batch (s, b)).filter (fun t => decide (t.subaccount = s))
          = batch (s, b) :=
        List.filter_eq_self.2 (fun t ht => by simp [hbatch _ t ht])
      have h2 : ((rest.map batch).flatten.filter
          (fun t => decide (t.subaccount = s))) = [] := by
        rw [List.filter_eq_nil_iff]
        intro t ht
        obtain ⟨L, hL, htL⟩ := List.mem_flatten.1 ht
        obtain ⟨sub', hsub', rfl⟩ := List.mem_map.1 hL
        have hts := hbatch sub' t htL
        have hne : sub'.1 ≠ s := by
          intro h
          have hmm : sub'.1 ∈ rest.map Prod.fst :=
            List.mem_map_of_mem Prod.fst hsub'
          rw [h] at hmm
          exact (List.nodup_cons.1 hnd).1 hmm
        simp [hts, hne]
      rw [h1, h2, List.append_nil]
    · have hne : sub.1 ≠ s := by
        intro h
        have hmm : s ∈ rest.map Prod.fst :=
          List.mem_map_of_mem Prod.fst hmem'
        rw [← h] at hmm
        exact (List.nodup_cons.1 hnd).1 hmm
      have h1 : (batch sub).filter (fun t => decide (t.subaccount = s)) = [] := by
        rw [List.filter_eq_nil_iff]
        intro t ht
        simp [hbatch _ t ht, hne]
      rw [h1, List.nil_append]
      exact ih s b (List.nodup_cons.1 hnd).2 hmem'

theorem mem_selectForSubacct {ave : ℕ → ℚ} {acct_settings : AllocSettings}
    {feasC : List FeasRow} {subacct amount : ℚ} {r : FeasRow}
    (h : r ∈ selectForSubacct ave acct_settings feasC subacct amount) :
    r ∈ feasC ∧ acct_settings.sending_buildings_subaccount_def r = subacct := by
  unfold selectForSubacct at h
  have h1 := List.take_subset _ _ h
  unfold sortedCandidates at h1
  have h2 := mem_sortByKeyDesc.1 h1
  refine ⟨(List.mem_filter.1 h2).1, ?_⟩
  have := (List.mem_filter.1 h2).2
  simpa using this

theorem mem_candidateRows {ave : ℕ → ℚ} {acct_settings : AllocSettings}
    {feasibility : List FeasRow} {r : FeasRow}
    (h : r ∈ candidateRows ave acct_settings feasibility) :
    (∃ v, r.max_profit = some v ∧ v < 0) ∧
      r.total_residential_units < residential_units_of ave r ∧
      r ∈ feasibility := by
  unfold candidateRows at h
  have h2 : r ∈ (feasibility.filter (fun r => match r.max_profit with
      | some v => decide (v < 0)
      | none => false)).filter (fun r =>
        decide (r.total_residential_units < residential_units_of ave r)) := by
    rcases hflt : acct_settings.receiving_buildings_filter with _ | flt <;>
      rw [hflt] at h
    · exact h
    · exact (List.mem_filter.1 h).1
  have h3 := List.mem_filter.1 h2
  have h4 := List.mem_filter.1 h3.1
  refine ⟨?_, by simpa using h3.2, h4.1⟩
  rcases hmp : r.max_profit with _ | v
  · rw [hmp] at h4
    simp at h4
  · refine ⟨v, rfl, ?_⟩
    have := h4.2
    rw [hmp] at this
    simpa using this

theorem profit_neg_of_mem_candidateRows {ave : ℕ → ℚ}
    {acct_settings : AllocSettings} {feasibility : List FeasRow} {r : FeasRow}
    (h : r ∈ candidateRows ave acct_settings feasibility) :
    profit_of r < 0 := by
  obtain ⟨⟨v, hv, hvneg⟩, -, -⟩ := mem_candidateRows h
  rw [profit_of, hv]
  exact hvneg

/-- The total subsidy cost of the candidates a subaccount selects out of the
candidate rows is below the balance used for the cut, whenever that balance
is non-negative (and strictly below it whenever anything is selected). -/
theorem sum_cost_selectForSubacct_le {ave : ℕ → ℚ}
    {acct_settings : AllocSettings} {feasibility : List FeasRow}
    {s b : ℚ} (demand : FeasRow → Bool) (hb : 0 ≤ b) :
    (((selectForSubacct ave acct_settings
        (candidateRows ave acct_settings feasibility) s b).filter demand).map
          (fun r => |profit_of r|)).sum ≤ b := by
  set feasC := candidateRows ave acct_settings feasibility with hfeasC
  set sel := selectForSubacct ave acct_settings feasC s b with hsel
  have habs : ∀ r ∈ sel.filter demand, |profit_of r| = subsidyCost r := by
    intro r hr
    have hmem := (List.mem_filter.1 hr).1
    have hneg := profit_neg_of_mem_candidateRows
      ((mem_selectForSubacct (hsel ▸ hmem)).1)
    rw [subsidyCost, abs_of_neg hneg]
  rw [List.map_congr_left habs]
  have hcostpos : ∀ r ∈ sel, 0 ≤ subsidyCost r := by
    intro r hr
    have hneg := profit_neg_of_mem_candidateRows
      ((mem_selectForSubacct (hsel ▸ hr)).1)
    rw [subsidyCost]
    linarith
  have hfle : ((sel.filter demand).map subsidyCost).sum
      ≤ (sel.map subsidyCost).sum :=
    sum_map_filter_le sel demand subsidyCost hcostpos
  have hselsum : (sel.map subsidyCost).sum ≤ b := by
    rw [hsel]
    unfold selectForSubacct
    rw [List.map_take]
    rcases sum_take_searchsorted
        ((sortedCandidates ave acct_settings feasC s).map subsidyCost) b
      with h0 | hlt
    · rw [num_bldgs, h0]
      simpa using hb
    · rw [num_bldgs]
      exact le_of_lt hlt
  linarith

/-! ## The claims -/

/-- Claim C3: within each subaccount the allocator orders candidates by
subsidy per unit, least negative first: for every pair of candidates, the
earlier one in the sorted order has subsidy per unit at least that of the
later one. -/
theorem C3_sorted_by_subsidy_per_unit_desc (ave : ℕ → ℚ)
    (acct_settings : AllocSettings) (feasC : List FeasRow) (subacct : ℚ) :
    (sortedCandidates ave acct_settings feasC subacct).Pairwise
      (fun a b => subsidy_per_unit_of ave b ≤ subsidy_per_unit_of ave a) := by
  unfold sortedCandidates
  exact sortByKeyDesc_sorted _ _

/-- Claim C8: the implied residential unit count of every proposal is the
floor of projected residential square footage over the configured average
square feet per unit; in particular it never exceeds the exact quotient (the
division is rounded down, never up). -/
theorem C8_implied_units_floor (ave : ℕ → ℚ) (r : FeasRow) :
    residential_units_of ave r = ⌊r.residential_sqft / ave r.parcelId⌋ ∧
      (residential_units_of ave r : ℚ) ≤ r.residential_sqft / ave r.parcelId :=
  ⟨rfl, Int.floor_le _⟩

/-- Claim C7: when no building of the construction summary passes the
qualifying filter (built in the year window, not already subsidized), one
call to calculate_vmt_fees leaves the account entirely unchanged: no
transaction is posted, not even a zero-amount one. -/
theorem C7_vmt_noop_on_empty (fee_amounts : ℚ → ℚ) (year years_per_iter : ℤ)
    (parcel_output : List ParcelOut) (account : Account)
    (h : parcel_output.filter (vmtQualifies year years_per_iter) = []) :
    calculate_vmt_fees fee_amounts year years_per_iter parcel_output account
      = account := by
  unfold calculate_vmt_fees
  rw [h]
  simp

/-- Claim C9: the selection the allocator makes is a deterministic function
of the candidate table, the settings and the starting subaccount balances:
two accounts reporting the same subaccount balances yield the same
per-subaccount selections and the same constructed-building list. -/
theorem C9_selection_deterministic (ave : ℕ → ℚ)
    (acct_settings : AllocSettings) (year : ℤ) (demand : FeasRow → Bool)
    (feasibility : List FeasRow) (a₁ a₂ : Account)
    (h : a₁.iter_subaccounts = a₂.iter_subaccounts) :
    allocatorSelections ave acct_settings
        (candidateRows ave acct_settings feasibility) a₁.iter_subaccounts
      = allocatorSelections ave acct_settings
        (candidateRows ave acct_settings feasibility) a₂.iter_subaccounts ∧
    (run_subsidized_developer ave acct_settings year demand a₁ feasibility).2
      = (run_subsidized_developer ave acct_settings year demand a₂
          feasibility).2 := by
  refine ⟨by rw [h], ?_⟩
  unfold run_subsidized_developer
  simp only
  rw [h]

/-- Claim C1 (amended): for every subaccount the account reports with a
non-negative balance at call start, the sum of the magnitudes of the subsidy
transactions run_subsidized_developer books to that subaccount during the
call is at most that starting balance.  (For a subaccount reported with a
negative balance nothing is booked, but a zero spend does not lie below a
negative balance, so the claim as stated fails there; see the
counterexample.) -/
theorem C1_spend_le_starting_balance (ave : ℕ → ℚ)
    (acct_settings : AllocSettings) (year : ℤ) (demand : FeasRow → Bool)
    (account : Account) (feasibility : List FeasRow) (s b : ℚ)
    (hmem : (s, b) ∈ account.iter_subaccounts) (hb : 0 ≤ b) :
    spentOnSubacct account
      (run_subsidized_developer ave acct_settings year demand account
        feasibility).1 s ≤ b := by
  unfold spentOnSubacct postedDuring run_subsidized_developer
  simp only
  rw [List.drop_left]
  rw [filter_flatten_batches
    (fun sub => ((selectForSubacct ave acct_settings
      (candidateRows ave acct_settings feasibility) sub.1 sub.2).filter
        demand).map (devTransaction ave year sub.1))
    (fun sub t ht => by
      obtain ⟨r, -, rfl⟩ := List.mem_map.1 ht
      rfl)
    account.iter_subaccounts s b (iter_subaccounts_fst_nodup account) hmem]
  rw [List.map_map]
  exact sum_cost_selectForSubacct_le demand hb

/-! ## Concrete example scenarios -/

/-- A concrete revenue transaction metadata for the example scenarios. -/
def exMeta : Metadata := ⟨"Collecting property tax", 2010, none, none⟩

/-- A concrete account with a single subaccount, id 1, balance 1000. -/
def exAccount : Account := ⟨"vmt_fee_acct", [⟨1000, 1, exMeta⟩]⟩

/-- A concrete feasibility row: parcel 7, finite profit -600, 10000 square
feet, no existing units, jurisdiction 1. -/
def exRow : FeasRow := ⟨7, some (-600), 10000, 0, 1⟩

/-- Concrete allocator settings: no receiving-zone filter, subaccount mapping
by the jurisdiction attribute. -/
def exSettings : AllocSettings := ⟨none, fun r => r.juris⟩

/-- Concrete parcels table: average 100 square feet per unit everywhere. -/
def exAve : ℕ → ℚ := fun _ => 100

/-- Concrete demand oracle: the developer builds every submitted candidate. -/
def exDemand : FeasRow → Bool := fun _ => true

/-- A concrete account reporting subaccount 0 with negative balance -5. -/
def negAccount : Account := ⟨"obag_acct", [⟨-5, 0, exMeta⟩]⟩

/-- Claim C1, witness: on the concrete one-subaccount account with balance
1000 and one candidate costing 600 that gets built, the booked spend is
bounded by 1000. -/
theorem C1_spend_le_starting_balance_witness :
    spentOnSubacct exAccount
      (run_subsidized_developer exAve exSettings 2010 exDemand exAccount
        [exRow]).1 1 ≤ 1000 :=
  C1_spend_le_starting_balance exAve exSettings 2010 exDemand exAccount [exRow]
    1 1000
    (by simp [exAccount, Account.iter_subaccounts,
      Account.total_transactions_by_subacct, exMeta])
    (by norm_num)

/-- Claim C1, counterexample to the unamended statement: an account reporting
subaccount 0 with negative starting balance -5; the allocator books nothing
to it, and the zero spend is not at most -5, so the cumulative spend is not
bounded by the starting balance the way the claim states it for every
reported subaccount. -/
theorem C1_counterexample :
    ((0 : ℚ), (-5 : ℚ)) ∈ negAccount.iter_subaccounts ∧
    spentOnSubacct negAccount
      (run_subsidized_developer exAve exSettings 2010 exDemand negAccount
        []).1 0 = 0 ∧
    ¬ spentOnSubacct negAccount
      (run_subsidized_developer exAve exSettings 2010 exDemand negAccount
        []).1 0 ≤ (-5 : ℚ) := by
  have hiter : negAccount.iter_subaccounts = [((0 : ℚ), (-5 : ℚ))] := by
    simp [negAccount, Account.iter_subaccounts,
      Account.total_transactions_by_subacct, exMeta]
  have hspent : spentOnSubacct negAccount
      (run_subsidized_developer exAve exSettings 2010 exDemand negAccount
        []).1 0 = 0 := by
    unfold run_subsidized_developer spentOnSubacct postedDuring
    simp [hiter, candidateRows, selectForSubacct, sortedCandidates,
      sortByKeyDesc, num_bldgs, searchsortedLeft, cumsum, negAccount]
  refine ⟨by rw [hiter]; exact List.mem_cons_self _ _, hspent, ?_⟩
  rw [hspent]
  norm_num

/-- Claim C4: every candidate the allocator passes to the generic
developer-construction routine has a finite max_profit (drawn from a some
value, i.e. neither NaN nor infinite in the source table), that max_profit
is strictly negative, and the implied residential unit count strictly
exceeds the existing unit count of the building; so a feasibility row with
non-negative profit never appears in the candidate set. -/
theorem C4_passed_candidates_wellformed (ave : ℕ → ℚ)
    (acct_settings : AllocSettings) (feasibility : List FeasRow)
    (subacct amount : ℚ) (r : FeasRow)
    (h : r ∈ selectForSubacct ave acct_settings
      (candidateRows ave acct_settings feasibility) subacct amount) :
    (∃ v, r.max_profit = some v ∧ v < 0) ∧ profit_of r < 0 ∧
      r.total_residential_units < residential_units_of ave r := by
  obtain ⟨hmem, -⟩ := mem_selectForSubacct h
  obtain ⟨⟨v, hv, hvneg⟩, hunits, -⟩ := mem_candidateRows hmem
  refine ⟨⟨v, hv, hvneg⟩, ?_, hunits⟩
  rw [profit_of, hv]
  exact hvneg

/-- Claim C4, witness: the concrete candidate with profit -600 is selected
and satisfies every condition. -/
theorem C4_passed_candidates_wellformed_witness :
    (∃ v, exRow.max_profit = some v ∧ v < 0) ∧ profit_of exRow < 0 ∧
      exRow.total_residential_units < residential_units_of exAve exRow :=
  C4_passed_candidates_wellformed exAve exSettings [exRow] 1 1000 exRow
    (by norm_num [selectForSubacct, sortedCandidates, sortByKeyDesc,
      insertByKeyDesc, candidateRows, residential_units_of, num_bldgs,
      searchsortedLeft, cumsum, subsidyCost, profit_of, exRow, exSettings,
      exAve, List.filter, List.takeWhile])

/-- Claim C10: a candidate whose configured subaccount-mapping value matches
no subaccount the account reports is never selected for any reported
subaccount, never appears among the constructed buildings, and no
transaction booked during the call carries its subaccount value. -/
theorem C10_unreported_subaccount_never_funded (ave : ℕ → ℚ)
    (acct_settings : AllocSettings) (year : ℤ) (demand : FeasRow → Bool)
    (account : Account) (feasibility : List FeasRow) (r : FeasRow)
    (h : acct_settings.sending_buildings_subaccount_def r
      ∉ account.iter_subaccounts.map Prod.fst) :
    (∀ sel ∈ allocatorSelections ave acct_settings
        (candidateRows ave acct_settings feasibility)
        account.iter_subaccounts, r ∉ sel) ∧
    r ∉ (run_subsidized_developer ave acct_settings year demand account
        feasibility).2 ∧
    (∀ t ∈ postedDuring account
        (run_subsidized_developer ave acct_settings year demand account
          feasibility).1,
      t.subaccount ≠ acct_settings.sending_buildings_subaccount_def r) := by
  have hsel : ∀ sub ∈ account.iter_subaccounts,
      r ∉ selectForSubacct ave acct_settings
        (candidateRows ave acct_settings feasibility) sub.1 sub.2 := by
    intro sub hsub hr
    obtain ⟨-, hdef⟩ := mem_selectForSubacct hr
    exact h (hdef ▸ List.mem_map_of_mem Prod.fst hsub)
  refine ⟨?_, ?_, ?_⟩
  · intro sel hs hr
    obtain ⟨sub, hsub, rfl⟩ := List.mem_map.1 hs
    exact hsel sub hsub hr
  · intro hr
    unfold run_subsidized_developer at hr
    simp only at hr
    obtain ⟨L, hL, hrL⟩ := List.mem_flatten.1 hr
    obtain ⟨sub, hsub, rfl⟩ := List.mem_map.1 hL
    exact hsel sub hsub (List.mem_filter.1 hrL).1
  · intro t ht
    unfold run_subsidized_developer postedDuring at ht
    simp only at ht
    rw [List.drop_left] at ht
    obtain ⟨L, hL, htL⟩ := List.mem_flatten.1 ht
    obtain ⟨sub, hsub, rfl⟩ := List.mem_map.1 hL
    obtain ⟨rr, -, rfl⟩ := List.mem_map.1 htL
    intro heq
    exact h (heq ▸ List.mem_map_of_mem Prod.fst hsub)

theorem queryTable_ok {t : Table} {e : BoolExpr} {bs : Table}
    (h : queryTable t e = Except.ok bs) :
    bs.cols = t.cols ∧ bs.rows = t.rows.filter (fun r => e.evalOn r) := by
  unfold queryTable at h
  by_cases hc : e.fields.all (fun f => t.cols.contains f) = true
  · rw [if_pos hc] at h
    injection h with h
    rw [← h]
    exact ⟨rfl, rfl⟩
  · rw [if_neg hc] at h
    cases h

theorem evalColumn_ok {t : Table} {e : NumExpr} {vals : List ℚ}
    (h : evalColumn t e = Except.ok vals) :
    vals = t.rows.map (fun r => e.evalOn r) := by
  unfold evalColumn at h
  by_cases hc : e.fields.all (fun f => t.cols.contains f) = true
  · rw [if_pos hc] at h
    injection h with h
    exact h.symm
  · rw [if_neg hc] at h
    cases h

theorem getColumn_ok {t : Table} {c : String} {vals : List ℚ}
    (h : getColumn t c = Except.ok vals) :
    vals = t.rows.map (fun r => r.get c) := by
  unfold getColumn at h
  by_cases hc : t.cols.contains c = true
  · rw [if_pos hc] at h
    injection h with h
    exact h.symm
  · rw [if_neg hc] at h
    cases h

theorem sum_map_amount_taxTx (tot : List (ℚ × ℚ)) (year : ℤ) :
    ((tot.map (fun p =>
      ({ amount := p.2, subaccount := p.1,
         metadata := { description := "Collecting property tax",
                       year := year, building_id := none,
                       residential_units := none } } : Transaction))).map
      Transaction.amount).sum = (tot.map Prod.snd).sum := by
  rw [List.map_map]
  rfl

/-- Claim C5: in one call to tax_buildings, the sum over all subaccounts of
the posted transaction amounts equals the sum of the per-building tax values
the configured tax expression computes on the filtered buildings before
grouping: the groupby step conserves total tax. -/
theorem C5_tax_total_conserved (buildings : Table)
    (acct_settings : TaxSettings) (account : Account) (year : ℤ)
    (acct' : Account)
    (h : tax_buildings buildings acct_settings account year
      = Except.ok acct') :
    ∃ bs : Table,
      queryTable buildings acct_settings.sending_buildings_filter
        = Except.ok bs ∧
      ((postedDuring account acct').map Transaction.amount).sum
        = (bs.rows.map (fun r =>
            acct_settings.sending_buildings_tax.evalOn r)).sum := by
  unfold tax_buildings at h
  split at h
  next e heq => cases h
  next bs heq =>
    split at h
    next e heq2 => cases h
    next tax heq2 =>
      split at h
      next e heq3 => cases h
      next subaccounts heq3 =>
        injection h with h
        refine ⟨bs, heq, ?_⟩
        rw [← h]
        unfold postedDuring
        rw [List.drop_left, sum_map_amount_taxTx, groupbySum_conserves]
        have htax := evalColumn_ok heq2
        have hsub := getColumn_ok heq3
        have hlen : tax.length ≤ subaccounts.length := by
          rw [htax, hsub, List.length_map, List.length_map]
        rw [List.map_snd_zip subaccounts tax hlen, htax]

/-- Claim C6: when the configured filter expression or the configured tax
expression references a field the buildings table does not have,
tax_buildings aborts with an error instead of completing (so no silent
zero-tax result and no silently skipped filter). -/
theorem C6_missing_field_aborts (buildings : Table)
    (acct_settings : TaxSettings) (account : Account) (year : ℤ)
    (h : (∃ f ∈ acct_settings.sending_buildings_filter.fields,
            buildings.cols.contains f = false) ∨
         (∃ f ∈ acct_settings.sending_buildings_tax.fields,
            buildings.cols.contains f = false)) :
    ∃ msg, tax_buildings buildings acct_settings account year
      = Except.error msg := by
  rcases h with ⟨f, hf, hfc⟩ | ⟨f, hf, hfc⟩
  · have hall : ¬ (acct_settings.sending_buildings_filter.fields.all
        (fun f => buildings.cols.contains f) = true) := by
      intro hall
      rw [List.all_eq_true] at hall
      rw [hall f hf] at hfc
      cases hfc
    refine ⟨"query expression references a missing field", ?_⟩
    unfold tax_buildings queryTable
    rw [if_neg hall]
  · cases hq : queryTable buildings
        acct_settings.sending_buildings_filter with
    | error e =>
      refine ⟨e, ?_⟩
      unfold tax_buildings
      split
      next e2 heq => rw [hq] at heq; injection heq with heq; rw [heq]
      next bs heq => rw [hq] at heq; cases heq
    | ok bs =>
      have hcols := (queryTable_ok hq).1
      have hall : ¬ (acct_settings.sending_buildings_tax.fields.all
          (fun f => bs.cols.contains f) = true) := by
        intro hall
        rw [List.all_eq_true] at hall
        rw [hcols] at hall
        rw [hall f hf] at hfc
        cases hfc
      have heval : evalColumn bs acct_settings.sending_buildings_tax
          = Except.error "eval expression references a missing field" := by
        unfold evalColumn
        rw [if_neg hall]
      refine ⟨"eval expression references a missing field", ?_⟩
      unfold tax_buildings
      split
      next e2 heq => rw [hq] at heq; cases heq
      next bs' heq =>
        rw [hq] at heq
        injection heq with heq
        subst heq
        split
        next e2 heq2 =>
          rw [heval] at heq2
          injection heq2 with heq2
          rw [heq2]
        next tax heq2 => rw [heval] at heq2; cases heq2

/-- A concrete buildings table: one building with a tax base of 100 in
jurisdiction 1. -/
def c5table : Table :=
  ⟨["tax_base", "juris"], [[("tax_base", 100), ("juris", 1)]]⟩

/-- Concrete tax settings: keep buildings with non-negative tax base, tax
them by the tax base, group by the jurisdiction column. -/
def c5settings : TaxSettings :=
  ⟨BoolExpr.le (NumExpr.lit 0) (NumExpr.field "tax_base"),
   NumExpr.field "tax_base", "juris"⟩

/-- A concrete empty property-tax account. -/
def c5acct : Account := ⟨"prop_tax_acct", []⟩

/-- The account after taxing the concrete table: one transaction of 100 to
subaccount 1. -/
def c5out : Account := ⟨"prop_tax_acct", [⟨100, 1, exMeta⟩]⟩

/-- Claim C5, witness: on the concrete one-building table the single posted
transaction of 100 equals the total computed tax. -/
theorem C5_tax_total_conserved_witness :
    ∃ bs : Table,
      queryTable c5table c5settings.sending_buildings_filter
        = Except.ok bs ∧
      ((postedDuring c5acct c5out).map Transaction.amount).sum
        = (bs.rows.map (fun r =>
            c5settings.sending_buildings_tax.evalOn r)).sum :=
  C5_tax_total_conserved c5table c5settings c5acct 2010 c5out
    (by simp [tax_buildings, queryTable, evalColumn, getColumn,
      groupbySum, c5table, c5settings, c5acct, c5out, exMeta,
      NumExpr.fields, BoolExpr.fields, NumExpr.evalOn, BoolExpr.evalOn,
      Row.get, List.lookup, List.filter, List.all])

/-- Concrete tax settings whose filter references a field the table does not
have. -/
def c6settings : TaxSettings :=
  ⟨BoolExpr.le (NumExpr.lit 0) (NumExpr.field "parcel_size"),
   NumExpr.field "tax_base", "juris"⟩

/-- Claim C6, witness: taxing the concrete table with a filter referencing
the absent parcel_size field aborts with an error. -/
theorem C6_missing_field_aborts_witness :
    ∃ msg, tax_buildings c5table c6settings c5acct 2010
      = Except.error msg :=
  C6_missing_field_aborts c5table c6settings c5acct 2010
    (Or.inl ⟨"parcel_size",
      by simp [c6settings, BoolExpr.fields, NumExpr.fields],
      by simp [c5table]⟩)

/-- A concrete feasibility row mapped to jurisdiction 2, a subaccount the
concrete account has never seen. -/
def strayRow : FeasRow := ⟨9, some (-100), 1000, 0, 2⟩

/-- Claim C10, witness: the concrete account only reports subaccount 1, so
the row mapped to subaccount 2 is never selected, built or booked. -/
theorem C10_unreported_subaccount_never_funded_witness :
    (∀ sel ∈ allocatorSelections exAve exSettings
        (candidateRows exAve exSettings [exRow, strayRow])
        exAccount.iter_subaccounts, strayRow ∉ sel) ∧
    strayRow ∉ (run_subsidized_developer exAve exSettings 2010 exDemand
        exAccount [exRow, strayRow]).2 ∧
    (∀ t ∈ postedDuring exAccount
        (run_subsidized_developer exAve exSettings 2010 exDemand exAccount
          [exRow, strayRow]).1,
      t.subaccount ≠ exSettings.sending_buildings_subaccount_def strayRow) :=
  C10_unreported_subaccount_never_funded exAve exSettings 2010 exDemand
    exAccount [exRow, strayRow] strayRow
    (by norm_num [exAccount, Account.iter_subaccounts,
      Account.total_transactions_by_subacct, exMeta, exSettings, strayRow])

/-- A concrete construction-summary row that does not qualify for VMT fees:
it is already tagged subsidized. -/
def c7parcel : ParcelOut := ⟨2011, true, 1, 10⟩

/-- Claim C7, witness: with a single already-subsidized building in the year
window the call leaves the concrete account unchanged. -/
theorem C7_vmt_noop_on_empty_witness :
    calculate_vmt_fees (fun _ => 5) 2010 5 [c7parcel] exAccount = exAccount :=
  C7_vmt_noop_on_empty (fun _ => 5) 2010 5 [c7parcel] exAccount (by decide)

/-- A copy of the concrete account under another name: the same ledger, so
the same reported subaccount balances. -/
def exAccount2 : Account := ⟨"vmt_fee_acct_copy", [⟨1000, 1, exMeta⟩]⟩

/-- Claim C9, witness: the two concrete accounts with identical ledgers give
identical selections and constructed buildings. -/
theorem C9_selection_deterministic_witness :
    allocatorSelections exAve exSettings
        (candidateRows exAve exSettings [exRow]) exAccount.iter_subaccounts
      = allocatorSelections exAve exSettings
        (candidateRows exAve exSettings [exRow])
        exAccount2.iter_subaccounts ∧
    (run_subsidized_developer exAve exSettings 2010 exDemand exAccount
        [exRow]).2
      = (run_subsidized_developer exAve exSettings 2010 exDemand exAccount2
        [exRow]).2 :=
  C9_selection_deterministic exAve exSettings 2010 exDemand [exRow]
    exAccount exAccount2 rfl

/-- First candidate of the balance-boundary scenario: subsidy cost 200000,
100 implied units, jurisdiction 1. -/
def c2rowA : FeasRow := ⟨1, some (-200000), 100000, 0, 1⟩

/-- Second candidate of the balance-boundary scenario: subsidy cost 500000. -/
def c2rowB : FeasRow := ⟨2, some (-500000), 100000, 0, 1⟩

/-- Third candidate of the balance-boundary scenario: subsidy cost 900000. -/
def c2rowC : FeasRow := ⟨3, some (-900000), 100000, 0, 1⟩

/-- Parcels average of 1000 square feet per unit for the boundary scenario. -/
def c2ave : ℕ → ℚ := fun _ => 1000

/-- Claim C2: at a subaccount balance of exactly 700000 — the cumulative
cost of the first two sorted candidates (200000 + 500000) — the code keeps
only the first candidate, because searchsorted with its default left side
cuts at the first cumulative sum greater than or equal to the balance.  The
claim, the spec (section 4.3 step c) and the docstring of
run_subsidized_developer (step 8: subsidy less than or equal to the amount
in the account) all keep candidates with cumulative cost up to and
including the balance, which here selects two.  The code diverges from its
own documentation exactly at such equality points. -/
theorem C2_boundary_cut_code_vs_spec :
    selectForSubacct c2ave exSettings
        (candidateRows c2ave exSettings [c2rowA, c2rowB, c2rowC]) 1 700000
      = [c2rowA] ∧
    specSelectedCount
      ((sortedCandidates c2ave exSettings
        (candidateRows c2ave exSettings [c2rowA, c2rowB, c2rowC]) 1).map
          subsidyCost) 700000 = 2 := by
  constructor <;>
    norm_num [selectForSubacct, sortedCandidates, sortByKeyDesc,
      insertByKeyDesc, candidateRows, residential_units_of,
      subsidy_per_unit_of, profit_of, subsidyCost, num_bldgs,
      searchsortedLeft, cumsum, specSelectedCount, c2rowA, c2rowB, c2rowC,
      c2ave, exSettings, List.filter, List.takeWhile]

end Subsidies
